import Mathlib

/-!
Verification of the EventlyApp seat/capacity reservation subsystem.

This file shallowly embeds the reservation code:
* `SeatService` (src/src/services/seatService.ts) — the per-event Redis
  bitmap, modelled as a function `Nat → Bool` (bit index ↦ taken).
* `EventService.reserveSeats` / `releaseSeats`
  (src/src/services/eventService.ts) — the capacity ledger.  The atomic
  conditional UPDATE is modelled per attempt against a `Sched`: the row
  the UPDATE of attempt `n` sees and the row the diagnostic re-read of
  attempt `n` sees (they differ exactly when a concurrent writer raced).
* `BookingService.createBooking` / `cancelBooking` — the orchestrator
  saga, over an explicit `World` state.
Numbers are `Int` (JS numbers on these code paths hold integers); ids
are `Nat`; fallible code returns `Except String` carrying the exact
thrown message.
-/

/-- One event row: `time` is epoch milliseconds. -/
structure Event where
  id : Nat
  name : String
  venue : String
  time : Int
  capacity : Int
  bookedSeats : Int
deriving DecidableEq, Repr

/-- One booking row; `status` is the literal string stored by the code. -/
structure Booking where
  id : Nat
  userId : Nat
  eventId : Nat
  status : String
  seatNumber : Option Int
deriving DecidableEq, Repr

/-- Point update of a bitmap, the model of Redis SETBIT. -/
def setBit (bm : Nat → Bool) (i : Nat) (v : Bool) : Nat → Bool :=
  fun j => if j = i then v else bm j

namespace SeatService

/-- Model of `isSeatTaken` (seatService.ts lines 21–25). -/
def isSeatTaken (bm : Nat → Bool) (seatNumber : Int) : Except String Bool :=
  if seatNumber ≤ 0 then .error "seatNumber must be >= 1"
  else .ok (bm (seatNumber - 1).toNat)

/-- Model of `tryAcquireSeat`: SETBIT returns the previous bit; acquired
iff it was 0.  Returns (acquired, new bitmap). -/
def tryAcquireSeat (bm : Nat → Bool) (seatNumber : Int) :
    Except String (Bool × (Nat → Bool)) :=
  if seatNumber ≤ 0 then .error "seatNumber must be >= 1"
  else
    let prev := bm (seatNumber - 1).toNat
    .ok (prev == false, setBit bm (seatNumber - 1).toNat true)

/-- Model of `releaseSeat`: unconditionally clears the bit. -/
def releaseSeat (bm : Nat → Bool) (seatNumber : Int) :
    Except String (Nat → Bool) :=
  if seatNumber ≤ 0 then .error "seatNumber must be >= 1"
  else .ok (setBit bm (seatNumber - 1).toNat false)

/-- Model of the Lua script of `tryAcquireMultipleSeats`
(seatService.ts lines 96–123): first a GETBIT pass over every listed
seat, failing with the empty list if any bit is set, then a SETBIT pass
setting every listed bit; the script runs as one atomic unit. -/
def tryAcquireMultipleSeats (bm : Nat → Bool) (seatNumbers : List Int) :
    Except String (List Int × (Nat → Bool)) :=
  if seatNumbers.any (fun s => decide (s ≤ 0)) then
    .error "seatNumbers must all be >= 1"
  else if seatNumbers.any (fun s => bm (s - 1).toNat) then
    .ok ([], bm)
  else
    .ok (seatNumbers,
      seatNumbers.foldl (fun b s => setBit b (s - 1).toNat true) bm)

/-- Model of Redis `BITFIELD key GET u{size} start`: the `size` bits
from offset `start`, first bit as most significant. -/
def bitfieldGetU (bm : Nat → Bool) (start size : Nat) : Nat :=
  match size with
  | 0 => 0
  | n + 1 => (if bm start then 2 ^ n else 0) + bitfieldGetU bm (start + 1) n

/-- The decode loop body of `getAvailability`: element `i` of the chunk
is bit `size - 1 - i` of the fetched value (`(raw >> (size-1-i)) & 1`). -/
def decodeChunk (raw size : Nat) : List Bool :=
  (List.range size).map (fun i => Nat.testBit raw (size - 1 - i))

/-- The chunked read loop of `getAvailability`, chunk width 63. -/
def availLoop (bm : Nat → Bool) (cap start : Nat) : List Bool :=
  if _h : start < cap then
    decodeChunk (bitfieldGetU bm start (min 63 (cap - start)))
        (min 63 (cap - start)) ++
      availLoop bm cap (start + 63)
  else []
termination_by cap - start
decreasing_by omega

/-- Model of `getAvailability` (seatService.ts lines 47–75). -/
def getAvailability (bm : Nat → Bool) (capacity : Int) : List Bool :=
  if capacity ≤ 0 then [] else availLoop bm capacity.toNat 0

end SeatService

namespace EventService

/-- The single conditional UPDATE of `reserveSeats`:
`SET bookedSeats = bookedSeats + seats WHERE id = :id AND
bookedSeats + :seats <= capacity`, applied to the row the statement
sees (`none` when the row is absent); `none` result means zero rows
matched. -/
def condUpdate (row : Option Event) (seats : Int) : Option Event :=
  match row with
  | none => none
  | some e =>
      if e.bookedSeats + seats ≤ e.capacity then
        some {e with bookedSeats := e.bookedSeats + seats}
      else none

/-- Per-attempt view of the events table: `upd n` is the row attempt
`n`'s conditional UPDATE sees, `rd n` the row its diagnostic re-read
sees.  A sequential execution has `upd = rd` constant. -/
structure Sched where
  upd : Nat → Option Event
  rd : Nat → Option Event

/-- Outcome of `reserveSeats`: the returned row or thrown message, the
number of conditional UPDATEs issued, and the backoff sleeps (ms)
performed, in order. -/
structure ReserveOut where
  result : Except String Event
  attempts : Nat
  delays : List Int
deriving Repr

/-- The retry loop of `reserveSeats` (eventService.ts lines 134–175) at
iteration `attempt`, reindexed by the remaining iteration count
`fuel = (maxRetries - attempt).toNat`: the loop guard
`attempt < maxRetries` holds iff `fuel > 0`, and the retry condition
`attempt < maxRetries - 1` holds iff `fuel > 1`. -/
def reserveLoop (sch : Sched) (seats : Int) (attempt : Nat) :
    Nat → ReserveOut
  | 0 => ⟨.error "Failed to reserve seats after retries", 0, []⟩
  | fuel + 1 =>
    match condUpdate (sch.upd attempt) seats with
    | some saved => ⟨.ok saved, 1, []⟩
    | none =>
      match sch.rd attempt with
      | none => ⟨.error "Event not found", 1, []⟩
      | some event =>
        if event.bookedSeats + seats > event.capacity then
          ⟨.error "Not enough seats available", 1, []⟩
        else
          match fuel with
          | 0 =>
            ⟨.error "Failed to reserve seats due to concurrent updates",
              1, []⟩
          | _ + 1 =>
            let rest := reserveLoop sch seats (attempt + 1) fuel
            ⟨rest.result, rest.attempts + 1,
              20 * ((attempt : Int) + 1) :: rest.delays⟩

/-- Model of `reserveSeats` (eventService.ts lines 131–176). -/
def reserveSeats (sch : Sched) (seats maxRetries : Int) : ReserveOut :=
  if seats ≤ 0 then ⟨.error "seats must be > 0", 0, []⟩
  else reserveLoop sch seats 0 maxRetries.toNat

/-- A schedule with no interference: every attempt sees `row`. -/
def constSched (row : Option Event) : Sched := ⟨fun _ => row, fun _ => row⟩

/-- A schedule in which every UPDATE loses the race (matches no row)
while every re-read finds `e`: the permanent-concurrent-writer case. -/
def raceSched (e : Event) : Sched := ⟨fun _ => none, fun _ => some e⟩

end EventService

deriving instance DecidableEq for Except

/-- The mutable state the sagas act on: the user table (existence only —
the code only ever checks that the user row exists), the event table,
the per-event Redis bitmaps, the booking table, and the next id the
booking table will assign. -/
structure World where
  users : Nat → Bool
  events : Nat → Option Event
  seatBits : Nat → Nat → Bool
  bookings : List Booking
  nextId : Nat

/-- Write back one event row. -/
def World.setEvent (w : World) (eventId : Nat) (e : Event) : World :=
  {w with events := fun i => if i = eventId then some e else w.events i}

/-- Write back one event's bitmap. -/
def World.setBitmap (w : World) (eventId : Nat) (bm : Nat → Bool) : World :=
  {w with seatBits := fun i => if i = eventId then bm else w.seatBits i}

namespace EventService

/-- `reserveSeats` acting on a quiescent world: every attempt of the
loop sees the same stored row (no concurrent writer), and a successful
conditional UPDATE writes the returned row back. -/
def reserveSeatsW (w : World) (eventId : Nat) (seats maxRetries : Int) :
    Except String (Event × World) :=
  match (reserveSeats (constSched (w.events eventId)) seats maxRetries).result with
  | .ok e => .ok (e, w.setEvent eventId e)
  | .error m => .error m

/-- Model of `releaseSeats` (eventService.ts lines 182–199): a single
UPDATE `SET bookedSeats = GREATEST(bookedSeats - seats, 0) WHERE id =
:id`; zero rows updated means the event is missing. -/
def releaseSeatsW (w : World) (eventId : Nat) (seats : Int) :
    Except String (Event × World) :=
  if seats ≤ 0 then .error "seats must be > 0"
  else
    match w.events eventId with
    | none => .error "Event not found"
    | some e =>
      let updated := {e with bookedSeats := max (e.bookedSeats - seats) 0}
      .ok (updated, w.setEvent eventId updated)

end EventService

namespace BookingServiceTx

/-- The compensation loop `for (const n of acquiredSeats) await
this.seatService.releaseSeat(event.id, n)`: each release commits as it
happens; a thrown error stops the loop and propagates. -/
def releaseSeatsLoop (w : World) (eventId : Nat) :
    List Int → Option String × World
  | [] => (none, w)
  | s :: rest =>
    match SeatService.releaseSeat (w.seatBits eventId) s with
    | .error m => (some m, w)
    | .ok bm => releaseSeatsLoop (w.setBitmap eventId bm) eventId rest

/-- The booking rows `seatNumbers.map(...)` persisted by `manager.save`,
with the ids the table assigns. -/
def mkRows (w : World) (userId eventId : Nat) (seats : List Int) :
    List Booking :=
  seats.enum.map (fun p => ⟨w.nextId + p.1, userId, eventId, "booked", some p.2⟩)

/-- Model of the transactional `createBooking` of the multi-seat
`BookingService` variant (src/unnamed/part_001 lines 178–271).  `now` is
the clock read by `new Date()`; `persistFail` is true when the final
`manager.save` throws (e.g. the uniqueness constraint); the seat bitmap
and the capacity counter are mutated outside the surrounding DB
transaction, so their writes stand even when a later step throws, while
booking rows are only visible once the transaction commits. -/
def createBooking (w : World) (now : Int) (userId eventId : Nat)
    (seatNumbers : Option (List Int)) (persistFail : Bool) :
    Except String (List Booking) × World :=
  if !w.users userId then (.error "User not found", w)
  else
    match w.events eventId with
    | none => (.error "Event not found", w)
    | some event =>
      if event.time < now then (.error "Cannot book past events", w)
      else
        match seatNumbers with
        | some seats =>
          if 0 < seats.length then
            -- seated path (part_001 lines 219–258)
            if seats.any (fun n => decide (n < 1) || decide (event.capacity < n)) then
              (.error "Invalid seat number(s)", w)
            else
              match SeatService.tryAcquireMultipleSeats (w.seatBits eventId) seats with
              | .error m => (.error m, w)
              | .ok (acquired, bm) =>
                let w1 := w.setBitmap eventId bm
                if acquired.length ≠ seats.length then
                  match releaseSeatsLoop w1 eventId acquired with
                  | (some m, w2) => (.error m, w2)
                  | (none, w2) => (.error "One or more seats already taken", w2)
                else
                  match EventService.reserveSeatsW w1 eventId seats.length 3 with
                  | .error m => (.error m, w1)
                  | .ok (_, w2) =>
                    if persistFail then
                      match releaseSeatsLoop w2 eventId seats with
                      | (some m, w3) => (.error m, w3)
                      | (none, w3) =>
                        match EventService.releaseSeatsW w3 eventId seats.length with
                        | .error m => (.error m, w3)
                        | .ok (_, w4) => (.error "persistence error", w4)
                    else
                      let rows := mkRows w2 userId eventId seats
                      (.ok rows,
                        {w2 with bookings := w2.bookings ++ rows,
                                 nextId := w2.nextId + rows.length})
          else generalPath w userId eventId persistFail
        | none => generalPath w userId eventId persistFail
where
  /-- The general (no seat numbers) branch: `reserveSeats(event.id, 1)`
  then one booking row with `seatNumber = null`. -/
  generalPath (w : World) (userId eventId : Nat) (persistFail : Bool) :
      Except String (List Booking) × World :=
    match EventService.reserveSeatsW w eventId 1 3 with
    | .error m => (.error m, w)
    | .ok (_, w1) =>
      if persistFail then (.error "persistence error", w1)
      else
        let b : Booking := ⟨w1.nextId, userId, eventId, "booked", none⟩
        (.ok [b], {w1 with bookings := w1.bookings ++ [b], nextId := w1.nextId + 1})

end BookingServiceTx

namespace BookingService

/-- Modelled from the spec: `SeatService.confirmBookingWithSeats`,
called by `createBooking` in src/src/services/bookingService.ts line
39, is not among the sources.  Spec §4.3 steps 2–3: with seats, validate
each seat lies in `[1, capacity]` (`InvalidArgument`), `acquireAll`
(failure means `SeatConflict`, nothing mutated), `reserve(count =
len(seats))` (on failure release the just-acquired seats and propagate),
persist one `Booked` row per seat (on failure release seats and
capacity, `PersistenceConflict`); without seats, `reserve(count = 1)`
then one row with null seat (on persistence failure release the unit
and propagate). -/
def confirmBookingWithSeats (w : World) (userId : Nat) (event : Event)
    (seatIds : List Int) (persistFail : Bool) :
    Except String (List Booking) × World :=
  if seatIds.isEmpty then
    match EventService.reserveSeatsW w event.id 1 3 with
    | .error m => (.error m, w)
    | .ok (_, w1) =>
      if persistFail then
        match EventService.releaseSeatsW w1 event.id 1 with
        | .error m => (.error m, w1)
        | .ok (_, w2) => (.error "PersistenceConflict", w2)
      else
        let b : Booking := ⟨w1.nextId, userId, event.id, "booked", none⟩
        (.ok [b], {w1 with bookings := w1.bookings ++ [b], nextId := w1.nextId + 1})
  else
    if seatIds.any (fun n => decide (n < 1) || decide (event.capacity < n)) then
      (.error "InvalidArgument", w)
    else
      match SeatService.tryAcquireMultipleSeats (w.seatBits event.id) seatIds with
      | .error m => (.error m, w)
      | .ok (acquired, bm) =>
        if acquired.isEmpty then (.error "SeatConflict", w)
        else
          let w1 := w.setBitmap event.id bm
          match EventService.reserveSeatsW w1 event.id seatIds.length 3 with
          | .error m =>
            match BookingServiceTx.releaseSeatsLoop w1 event.id seatIds with
            | (some m2, w2) => (.error m2, w2)
            | (none, w2) => (.error m, w2)
          | .ok (_, w2) =>
            if persistFail then
              match BookingServiceTx.releaseSeatsLoop w2 event.id seatIds with
              | (some m2, w3) => (.error m2, w3)
              | (none, w3) =>
                match EventService.releaseSeatsW w3 event.id seatIds.length with
                | .error m2 => (.error m2, w3)
                | .ok (_, w4) => (.error "PersistenceConflict", w4)
            else
              let rows := BookingServiceTx.mkRows w2 userId event.id seatIds
              (.ok rows,
                {w2 with bookings := w2.bookings ++ rows,
                         nextId := w2.nextId + rows.length})

/-- Model of `createBooking` (src/src/services/bookingService.ts lines
19–40): validate user, event and time, reject a duplicate active
booking, then delegate to `confirmBookingWithSeats`. -/
def createBooking (w : World) (now : Int) (userId eventId : Nat)
    (seatIds : Option (List Int)) (persistFail : Bool) :
    Except String (List Booking) × World :=
  if !w.users userId then (.error "User not found", w)
  else
    match w.events eventId with
    | none => (.error "Event not found", w)
    | some event =>
      if event.time < now then (.error "Cannot book past events", w)
      else if w.bookings.any
          (fun b => b.userId == userId && b.eventId == eventId && b.status == "booked") then
        (.error "You already have an active booking for this event", w)
      else
        let seatsToConfirm := match seatIds with
          | some l => if 0 < l.length then l else []
          | none => []
        confirmBookingWithSeats w userId event seatsToConfirm persistFail

/-- Modelled from the spec: `SeatService.releaseSeatsByBooking`, called
by `cancelBooking` in src/src/services/bookingService.ts line 62, is
not among the sources.  Spec §4.3 step 5: release one unit from the
capacity ledger and, if `seatNumber` is set, release that bit from the
seat bitmap; a failure propagates and is never compensated. -/
def releaseSeatsByBooking (w : World) (b : Booking) :
    Except String Unit × World :=
  match EventService.releaseSeatsW w b.eventId 1 with
  | .error m => (.error m, w)
  | .ok (_, w1) =>
    match b.seatNumber with
    | none => (.ok (), w1)
    | some s =>
      match SeatService.releaseSeat (w1.seatBits b.eventId) s with
      | .error m => (.error m, w1)
      | .ok bm => (.ok (), w1.setBitmap b.eventId bm)

/-- Model of `cancelBooking` (src/src/services/bookingService.ts lines
46–64): load, authorize, no-op when already cancelled, otherwise save
the `cancelled` status (committed at once — there is no surrounding
transaction) and then run the best-effort releases, whose error
propagates without touching the booking row again. -/
def cancelBooking (w : World) (bookingId requesterId : Nat)
    (requesterIsAdmin : Bool) : Except String Booking × World :=
  match w.bookings.find? (fun b => b.id == bookingId) with
  | none => (.error "Booking not found", w)
  | some booking =>
    if !requesterIsAdmin && booking.userId != requesterId then
      (.error "Not authorized to cancel this booking", w)
    else if booking.status == "cancelled" then (.ok booking, w)
    else
      let saved := {booking with status := "cancelled"}
      let w1 := {w with
        bookings := w.bookings.map (fun b => if b.id == bookingId then saved else b)}
      let rel := releaseSeatsByBooking w1 saved
      match rel.1 with
      | .error m => (.error m, rel.2)
      | .ok _ => (.ok saved, rel.2)

end BookingService

/-- A concrete event row used by concrete-input theorems. -/
def sampleEvent (capacity bookedSeats : Int) : Event :=
  ⟨1, "E", "V", 100, capacity, bookedSeats⟩

/-- A concrete world: one user (every id exists), one event (id 1), the
listed bit indices of event 1 set, no bookings yet. -/
def sampleWorld (capacity bookedSeats : Int) (taken : List Nat) : World where
  users := fun _ => true
  events := fun i => if i = 1 then some (sampleEvent capacity bookedSeats) else none
  seatBits := fun e i => e == 1 && taken.contains i
  bookings := []
  nextId := 1

/-- A world holding one `booked` booking (id 7, user 2, event 1,
seat 1) whose event row is missing, so the post-cancellation capacity
release fails. -/
def orphanBookingWorld : World where
  users := fun _ => true
  events := fun _ => none
  seatBits := fun e i => e == 1 && i == 0
  bookings := [⟨7, 2, 1, "booked", some 1⟩]
  nextId := 8

/-- A world holding one already-`cancelled` booking (id 7, user 2,
event 1, seat 1). -/
def cancelledBookingWorld : World :=
  {sampleWorld 5 1 [0] with bookings := [⟨7, 2, 1, "cancelled", some 1⟩]}

/-- Folding point bit-sets over a seat list sets exactly the listed
bits. -/
theorem foldl_setBit_eq (seats : List Int) : ∀ bm : Nat → Bool,
    seats.foldl (fun b s => setBit b (s - 1).toNat true) bm =
      fun i => bm i || seats.any (fun s => (s - 1).toNat == i) := by
  induction seats with
  | nil => intro bm; funext i; simp
  | cons s rest ih =>
    intro bm
    funext i
    simp only [List.foldl_cons, ih, List.any_cons]
    by_cases h : i = (s - 1).toNat
    · have h2 : i = s.toNat - 1 := by omega
      simp [setBit, h2]
    · have h2 : i ≠ s.toNat - 1 := by omega
      have h3 : (s.toNat - 1 == i) = false := by
        simp only [beq_eq_false_iff_ne, ne_eq]
        omega
      simp [setBit, h2, h3]

/-- C10.  With `maxRetries ≤ 0` the attempt loop of `reserveSeats` is
never entered: the call fails with the after-retries error (and issues
no conditional UPDATE) no matter what the events table holds —
in particular even when the event exists with enough free capacity. -/
theorem C10_reserveSeats_nonpositive_maxRetries
    (sch : EventService.Sched) (seats maxRetries : Int)
    (hs : 0 < seats) (hm : maxRetries ≤ 0) :
    EventService.reserveSeats sch seats maxRetries =
      ⟨.error "Failed to reserve seats after retries", 0, []⟩ := by
  unfold EventService.reserveSeats
  rw [if_neg (by omega)]
  have h0 : maxRetries.toNat = 0 := by omega
  rw [h0]
  rfl

/-- Witness for C10 at a schedule whose event exists with free
capacity. -/
theorem C10_witness :
    (0 : Int) < 2 ∧ (0 : Int) ≤ 0 ∧
    EventService.reserveSeats
        (EventService.constSched (some (sampleEvent 5 0))) 2 0 =
      ⟨.error "Failed to reserve seats after retries", 0, []⟩ :=
  ⟨by decide, by decide,
    C10_reserveSeats_nonpositive_maxRetries _ 2 0 (by decide) (by decide)⟩

/-- C5 counterexample: the claim quantifies over every `count`, but for
`count = 0` `releaseSeats` fails with the invalid-argument error even
though the event exists, rather than succeeding. -/
theorem C5_counterexample :
    (sampleWorld 5 2 []).events 1 = some (sampleEvent 5 2) ∧
    EventService.releaseSeatsW (sampleWorld 5 2 []) 1 0 =
      .error "seats must be > 0" :=
  ⟨rfl, rfl⟩

/-- C5 amended.  For every `count > 0`, `releaseSeats` succeeds whenever
the event exists, setting `bookedSeats` to `max (bookedSeats - count) 0`,
and fails with the not-found error exactly when the event is missing;
`count ≤ 0` fails with the invalid-argument error first. -/
theorem C5_releaseSeats_floor_amended (w : World) (eventId : Nat) (seats : Int) :
    (seats ≤ 0 →
      EventService.releaseSeatsW w eventId seats = .error "seats must be > 0") ∧
    (0 < seats → w.events eventId = none →
      EventService.releaseSeatsW w eventId seats = .error "Event not found") ∧
    (∀ e, 0 < seats → w.events eventId = some e →
      EventService.releaseSeatsW w eventId seats =
        .ok ({e with bookedSeats := max (e.bookedSeats - seats) 0},
          w.setEvent eventId {e with bookedSeats := max (e.bookedSeats - seats) 0})) := by
  unfold EventService.releaseSeatsW
  refine ⟨fun h => ?_, fun h hn => ?_, fun e h he => ?_⟩
  · rw [if_pos h]
  · rw [if_neg (by omega), hn]
  · rw [if_neg (by omega), he]

/-- Witness for C5: releasing 2 from an event with 1 booked floors at
zero. -/
theorem C5_witness :
    (0 : Int) < 2 ∧
    EventService.releaseSeatsW (sampleWorld 5 1 []) 1 2 =
      .ok ({sampleEvent 5 1 with bookedSeats := max ((1 : Int) - 2) 0},
        (sampleWorld 5 1 []).setEvent 1
          {sampleEvent 5 1 with bookedSeats := max ((1 : Int) - 2) 0}) :=
  ⟨by decide,
    (C5_releaseSeats_floor_amended (sampleWorld 5 1 []) 1 2).2.2
      (sampleEvent 5 1) (by decide) rfl⟩

/-- C7.  Cancelling an already-cancelled booking is an authorized no-op:
the booking is returned unchanged, the world (booking table, capacity
counter, seat bitmaps) is untouched, and no error is reported. -/
theorem C7_cancelBooking_idempotent (w : World) (bookingId requesterId : Nat)
    (admin : Bool) (b : Booking)
    (hfind : w.bookings.find? (fun x => x.id == bookingId) = some b)
    (hauth : admin = true ∨ b.userId = requesterId)
    (hc : b.status = "cancelled") :
    BookingService.cancelBooking w bookingId requesterId admin = (.ok b, w) := by
  unfold BookingService.cancelBooking
  have hcond : (!admin && b.userId != requesterId) = false := by
    rcases hauth with h | h
    · simp [h]
    · simp [h]
  simp [hfind, hcond, hc]

/-- Witness for C7 on a concrete already-cancelled booking. -/
theorem C7_witness :
    cancelledBookingWorld.bookings.find? (fun x => x.id == 7) =
        some ⟨7, 2, 1, "cancelled", some 1⟩ ∧
    BookingService.cancelBooking cancelledBookingWorld 7 2 false =
      (.ok ⟨7, 2, 1, "cancelled", some 1⟩, cancelledBookingWorld) :=
  ⟨rfl, C7_cancelBooking_idempotent cancelledBookingWorld 7 2 false _
    rfl (Or.inr rfl) rfl⟩

/-- C8.  `createBooking` validates before mutating: a missing user, a
missing event, or a past event time each fail with the corresponding
error while the world — seat bitmaps, capacity counters and booking
table alike — is returned exactly as it was. -/
theorem C8_createBooking_validates_before_mutation
    (w : World) (now : Int) (userId eventId : Nat)
    (sn : Option (List Int)) (pf : Bool) :
    (w.users userId = false →
      BookingServiceTx.createBooking w now userId eventId sn pf =
        (.error "User not found", w)) ∧
    (w.users userId = true → w.events eventId = none →
      BookingServiceTx.createBooking w now userId eventId sn pf =
        (.error "Event not found", w)) ∧
    (∀ e, w.users userId = true → w.events eventId = some e → e.time < now →
      BookingServiceTx.createBooking w now userId eventId sn pf =
        (.error "Cannot book past events", w)) := by
  unfold BookingServiceTx.createBooking
  refine ⟨fun hu => ?_, fun hu he => ?_, fun e hu he ht => ?_⟩
  · simp [hu]
  · simp [hu, he]
  · simp [hu, he, ht]

/-- Witness for C8: booking a past event fails with the invalid-state
error and mutates nothing. -/
theorem C8_witness :
    (sampleWorld 5 0 []).users 1 = true ∧
    (sampleWorld 5 0 []).events 1 = some (sampleEvent 5 0) ∧
    (sampleEvent 5 0).time < 200 ∧
    BookingServiceTx.createBooking (sampleWorld 5 0 []) 200 1 1 none false =
      (.error "Cannot book past events", sampleWorld 5 0 []) :=
  ⟨rfl, rfl, by decide,
    (C8_createBooking_validates_before_mutation
        (sampleWorld 5 0 []) 200 1 1 none false).2.2
      (sampleEvent 5 0) rfl rfl (by decide)⟩

/-- C1 (the code violates the claim).  Seated create on an event whose
capacity reservation must fail (capacity 1, bookedSeats 1, seat 1 free):
`tryAcquireMultipleSeats` succeeds, `reserveSeats` throws the
not-enough-capacity error, and `createBooking` propagates it with the
just-acquired seat bit STILL SET and no booking row — the
`reserveSeats` call sits outside the try/catch that performs seat
compensation, so the acquired seats are never released. -/
theorem C1_seated_reserve_failure_leaks_seat :
    (BookingServiceTx.createBooking (sampleWorld 1 1 []) 0 1 1 (some [1]) false).1 =
        .error "Not enough seats available" ∧
    (BookingServiceTx.createBooking (sampleWorld 1 1 []) 0 1 1 (some [1]) false).2.seatBits 1 0 =
        true ∧
    (BookingServiceTx.createBooking (sampleWorld 1 1 []) 0 1 1 (some [1]) false).2.bookings =
        [] :=
  ⟨by decide, by decide, by decide⟩

/-- C3.  The Lua multi-seat acquisition is all-or-nothing: with every
listed seat ≥ 1, if any listed bit is set the call returns the empty
list and the bitmap is unchanged; otherwise it returns the full list
and sets exactly the listed bits.  Concretely, after
`createBooking(seatNumbers = [3, 4])` fails because seat 4 is taken,
seat 3 is still free. -/
theorem C3_tryAcquireMultipleSeats_all_or_nothing :
    (∀ (bm : Nat → Bool) (seats : List Int), (∀ s ∈ seats, 1 ≤ s) →
      ((∃ s ∈ seats, bm (s - 1).toNat = true) →
        SeatService.tryAcquireMultipleSeats bm seats = .ok ([], bm)) ∧
      ((∀ s ∈ seats, bm (s - 1).toNat = false) →
        SeatService.tryAcquireMultipleSeats bm seats =
          .ok (seats, fun i => bm i || seats.any (fun s => (s - 1).toNat == i)))) ∧
    (BookingServiceTx.createBooking (sampleWorld 5 0 [3]) 0 1 1 (some [3, 4]) false).1 =
        .error "One or more seats already taken" ∧
    (BookingServiceTx.createBooking (sampleWorld 5 0 [3]) 0 1 1 (some [3, 4]) false).2.seatBits 1 2 =
        false := by
  refine ⟨?_, by decide, by decide⟩
  intro bm seats hpos
  have hval : seats.any (fun s => decide (s ≤ 0)) = false := by
    rw [List.any_eq_false]
    intro s hs
    have := hpos s hs
    simp only [decide_eq_true_eq]
    omega
  constructor
  · rintro ⟨s, hs, hbit⟩
    have htaken : seats.any (fun s => bm (s - 1).toNat) = true :=
      List.any_eq_true.2 ⟨s, hs, hbit⟩
    unfold SeatService.tryAcquireMultipleSeats
    rw [hval, htaken]
    rfl
  · intro hall
    have hfree : seats.any (fun s => bm (s - 1).toNat) = false := by
      rw [List.any_eq_false]
      intro s hs
      rw [hall s hs]
      exact Bool.false_ne_true
    unfold SeatService.tryAcquireMultipleSeats
    rw [hval, hfree, foldl_setBit_eq]
    rfl

/-- Witness for C3: acquiring seat 2 on an empty bitmap succeeds and
sets exactly bit 1. -/
theorem C3_witness :
    (∀ s ∈ [(2 : Int)], 1 ≤ s) ∧
    SeatService.tryAcquireMultipleSeats (fun _ => false) [2] =
      .ok ([2], fun i => (fun _ : Nat => false) i ||
        [(2 : Int)].any (fun s => (s - 1).toNat == i)) :=
  ⟨by decide,
    (C3_tryAcquireMultipleSeats_all_or_nothing.1 (fun _ => false) [2]
        (by decide)).2 (by intro s hs; rfl)⟩

theorem raceSched_upd (e : Event) (n : Nat) :
    (EventService.raceSched e).upd n = none := rfl

theorem raceSched_rd (e : Event) (n : Nat) :
    (EventService.raceSched e).rd n = some e := rfl

theorem constSched_upd (row : Option Event) (n : Nat) :
    (EventService.constSched row).upd n = row := rfl

theorem constSched_rd (row : Option Event) (n : Nat) :
    (EventService.constSched row).rd n = row := rfl

/-- Under a permanently racing writer with room available, every
iteration of the retry loop falls into the retry branch: the loop runs
through all its remaining iterations, sleeping `20·(attempt+1)` ms after
each non-final one, and ends with the concurrency-exhausted error. -/
theorem reserveLoop_raceSched (e : Event) (seats : Int)
    (hroom : e.bookedSeats + seats ≤ e.capacity) :
    ∀ (fuel attempt : Nat),
      EventService.reserveLoop (EventService.raceSched e) seats attempt (fuel + 1) =
        ⟨.error "Failed to reserve seats due to concurrent updates", fuel + 1,
          (List.range fuel).map (fun i : Nat => 20 * ((attempt : Int) + (i : Int) + 1))⟩ := by
  intro fuel
  induction fuel with
  | zero =>
    intro attempt
    rw [EventService.reserveLoop.eq_2]
    simp only [raceSched_upd, raceSched_rd, EventService.condUpdate]
    rw [if_neg (by omega)]
    rfl
  | succ n ih =>
    intro attempt
    rw [EventService.reserveLoop.eq_3]
    simp only [raceSched_upd, raceSched_rd, EventService.condUpdate]
    rw [if_neg (by omega), ih (attempt + 1)]
    have hdelays :
        20 * ((attempt : Int) + 1) ::
            (List.range n).map (fun i : Nat => 20 * (((attempt + 1 : Nat) : Int) + (i : Int) + 1)) =
          (List.range (n + 1)).map (fun i : Nat => 20 * ((attempt : Int) + (i : Int) + 1)) := by
      rw [List.range_succ_eq_map, List.map_cons, List.map_map]
      have hhead : (20 : Int) * ((attempt : Int) + ((0 : Nat) : Int) + 1) =
          20 * ((attempt : Int) + 1) := by push_cast; ring
      have htail : (List.range n).map
            ((fun i : Nat => 20 * ((attempt : Int) + (i : Int) + 1)) ∘ Nat.succ) =
          (List.range n).map
            (fun i : Nat => 20 * (((attempt + 1 : Nat) : Int) + (i : Int) + 1)) :=
        List.map_congr_left (fun i _ => by
          simp only [Function.comp_apply]
          push_cast
          ring)
      rw [hhead, htail]
    rw [← hdelays]

/-- If the conditional UPDATE of the current attempt matches, the loop
returns the updated row at once. -/
theorem reserveLoop_success (sch : EventService.Sched) (seats : Int)
    (attempt fuel : Nat) (saved : Event)
    (hupd : EventService.condUpdate (sch.upd attempt) seats = some saved) :
    EventService.reserveLoop sch seats attempt (fuel + 1) = ⟨.ok saved, 1, []⟩ := by
  cases fuel with
  | zero => rw [EventService.reserveLoop.eq_2, hupd]
  | succ n => rw [EventService.reserveLoop.eq_3, hupd]

/-- If the UPDATE matches nothing and the re-read finds no row, the loop
fails with the not-found error at once, with no retry. -/
theorem reserveLoop_notFound (sch : EventService.Sched) (seats : Int)
    (attempt fuel : Nat)
    (hupd : EventService.condUpdate (sch.upd attempt) seats = none)
    (hrd : sch.rd attempt = none) :
    EventService.reserveLoop sch seats attempt (fuel + 1) =
      ⟨.error "Event not found", 1, []⟩ := by
  cases fuel with
  | zero => rw [EventService.reserveLoop.eq_2, hupd, hrd]
  | succ n => rw [EventService.reserveLoop.eq_3, hupd, hrd]

/-- If the UPDATE matches nothing and the re-read shows insufficient
capacity, the loop fails with the capacity error at once, with no
retry. -/
theorem reserveLoop_notEnough (sch : EventService.Sched) (seats : Int)
    (attempt fuel : Nat) (event : Event)
    (hupd : EventService.condUpdate (sch.upd attempt) seats = none)
    (hrd : sch.rd attempt = some event)
    (hfull : event.bookedSeats + seats > event.capacity) :
    EventService.reserveLoop sch seats attempt (fuel + 1) =
      ⟨.error "Not enough seats available", 1, []⟩ := by
  cases fuel with
  | zero =>
    rw [EventService.reserveLoop.eq_2]
    simp only [hupd, hrd]
    rw [if_pos hfull]
  | succ n =>
    rw [EventService.reserveLoop.eq_3]
    simp only [hupd, hrd]
    rw [if_pos hfull]

/-- C2.  The reservation semantics of `reserveSeats`: the conditional
UPDATE applies `bookedSeats += count` exactly when `bookedSeats + count
≤ capacity`; `count ≤ 0` fails first with the invalid-argument error
and no UPDATE; with the row present and room, the first attempt
succeeds; a missing row gives the not-found error on the first attempt,
and an over-capacity row the capacity error on the first attempt, both
without retrying; and when every UPDATE loses to a concurrent writer
the loop runs all `maxRetries` attempts, sleeping `20·attempt` ms
between consecutive ones (attempts numbered from 1), and ends with the
concurrency-exhausted error. -/
theorem C2_reserveSeats_conditional_update_and_retry :
    (∀ (e : Event) (seats : Int),
      (EventService.condUpdate (some e) seats =
          some {e with bookedSeats := e.bookedSeats + seats} ↔
        e.bookedSeats + seats ≤ e.capacity) ∧
      (EventService.condUpdate (some e) seats = none ↔
        e.capacity < e.bookedSeats + seats)) ∧
    (∀ (sch : EventService.Sched) (seats maxRetries : Int), seats ≤ 0 →
      EventService.reserveSeats sch seats maxRetries =
        ⟨.error "seats must be > 0", 0, []⟩) ∧
    (∀ (e : Event) (seats maxRetries : Int), 0 < seats → 0 < maxRetries →
      e.bookedSeats + seats ≤ e.capacity →
      EventService.reserveSeats (EventService.constSched (some e)) seats maxRetries =
        ⟨.ok {e with bookedSeats := e.bookedSeats + seats}, 1, []⟩) ∧
    (∀ (seats maxRetries : Int), 0 < seats → 0 < maxRetries →
      EventService.reserveSeats (EventService.constSched none) seats maxRetries =
        ⟨.error "Event not found", 1, []⟩) ∧
    (∀ (e : Event) (seats maxRetries : Int), 0 < seats → 0 < maxRetries →
      e.capacity < e.bookedSeats + seats →
      EventService.reserveSeats (EventService.constSched (some e)) seats maxRetries =
        ⟨.error "Not enough seats available", 1, []⟩) ∧
    (∀ (e : Event) (seats maxRetries : Int), 0 < seats → 0 < maxRetries →
      e.bookedSeats + seats ≤ e.capacity →
      EventService.reserveSeats (EventService.raceSched e) seats maxRetries =
        ⟨.error "Failed to reserve seats due to concurrent updates",
          maxRetries.toNat,
          (List.range (maxRetries.toNat - 1)).map (fun i : Nat => 20 * ((i : Int) + 1))⟩) := by
  refine ⟨?_, ?_, ?_, ?_, ?_, ?_⟩
  · intro e seats
    by_cases h : e.bookedSeats + seats ≤ e.capacity
    · refine ⟨⟨fun _ => h, fun _ => ?_⟩, ⟨fun hx => ?_, fun hx => absurd hx (by omega)⟩⟩
      · simp only [EventService.condUpdate, if_pos h]
      · simp only [EventService.condUpdate, if_pos h] at hx
        exact absurd hx (by simp)
    · refine ⟨⟨fun hx => ?_, fun hx => absurd hx h⟩, ⟨fun _ => by omega, fun _ => ?_⟩⟩
      · simp only [EventService.condUpdate, if_neg h] at hx
        exact absurd hx (by simp)
      · simp only [EventService.condUpdate, if_neg h]
  · intro sch seats maxRetries h
    unfold EventService.reserveSeats
    rw [if_pos h]
  · intro e seats maxRetries hs hm hroom
    unfold EventService.reserveSeats
    rw [if_neg (by omega)]
    obtain ⟨k, hk⟩ : ∃ k, maxRetries.toNat = k + 1 := ⟨maxRetries.toNat - 1, by omega⟩
    rw [hk]
    refine reserveLoop_success _ _ _ _ _ ?_
    rw [constSched_upd]
    simp only [EventService.condUpdate, if_pos hroom]
  · intro seats maxRetries hs hm
    unfold EventService.reserveSeats
    rw [if_neg (by omega)]
    obtain ⟨k, hk⟩ : ∃ k, maxRetries.toNat = k + 1 := ⟨maxRetries.toNat - 1, by omega⟩
    rw [hk]
    exact reserveLoop_notFound _ _ _ _ rfl rfl
  · intro e seats maxRetries hs hm hfull
    unfold EventService.reserveSeats
    rw [if_neg (by omega)]
    obtain ⟨k, hk⟩ : ∃ k, maxRetries.toNat = k + 1 := ⟨maxRetries.toNat - 1, by omega⟩
    rw [hk]
    refine reserveLoop_notEnough _ _ _ _ e ?_ rfl hfull
    rw [constSched_upd]
    simp only [EventService.condUpdate, if_neg (by omega : ¬ e.bookedSeats + seats ≤ e.capacity)]
  · intro e seats maxRetries hs hm hroom
    unfold EventService.reserveSeats
    rw [if_neg (by omega)]
    obtain ⟨k, hk⟩ : ∃ k, maxRetries.toNat = k + 1 := ⟨maxRetries.toNat - 1, by omega⟩
    rw [hk, reserveLoop_raceSched e seats hroom k 0]
    have hrange : k + 1 - 1 = k := rfl
    rw [hrange]
    congr 1
    refine List.map_congr_left (fun i _ => ?_)
    push_cast
    ring

/-- Witness for C2: with bookedSeats 3, capacity 5 and count 2, the
first conditional UPDATE succeeds. -/
theorem C2_witness :
    (0 : Int) < 2 ∧ (0 : Int) < 3 ∧
    (sampleEvent 5 3).bookedSeats + 2 ≤ (sampleEvent 5 3).capacity ∧
    EventService.reserveSeats (EventService.constSched (some (sampleEvent 5 3))) 2 3 =
      ⟨.ok {sampleEvent 5 3 with bookedSeats := (sampleEvent 5 3).bookedSeats + 2}, 1, []⟩ :=
  ⟨by decide, by decide, by decide,
    C2_reserveSeats_conditional_update_and_retry.2.2.1 (sampleEvent 5 3) 2 3
      (by decide) (by decide) (by decide)⟩

/-- A successful capacity release leaves the booking table untouched. -/
theorem releaseSeatsW_ok_bookings (w : World) (eventId : Nat) (seats : Int)
    (e : Event) (w2 : World)
    (h : EventService.releaseSeatsW w eventId seats = .ok (e, w2)) :
    w2.bookings = w.bookings := by
  unfold EventService.releaseSeatsW at h
  by_cases hs : seats ≤ 0
  · rw [if_pos hs] at h
    exact absurd h (by simp)
  · rw [if_neg hs] at h
    cases hev : w.events eventId with
    | none =>
      rw [hev] at h
      exact absurd h (by simp)
    | some ev =>
      rw [hev] at h
      simp only [Except.ok.injEq, Prod.mk.injEq] at h
      obtain ⟨-, h2⟩ := h
      rw [← h2]
      rfl

/-- Whatever the releases do or fail to do, `releaseSeatsByBooking`
never touches the booking table. -/
theorem releaseSeatsByBooking_bookings (w : World) (b : Booking) :
    (BookingService.releaseSeatsByBooking w b).2.bookings = w.bookings := by
  unfold BookingService.releaseSeatsByBooking
  split
  · rfl
  · rename_i e w1 heq
    have h1 : w1.bookings = w.bookings :=
      releaseSeatsW_ok_bookings w b.eventId 1 e w1 heq
    split
    · exact h1
    · split
      · exact h1
      · exact h1

/-- C4.  Once an authorized cancel of a non-cancelled booking reaches
the status write, the resulting booking table holds the cancellation —
the status write is committed first and is never rolled back, no matter
whether the subsequent best-effort capacity/seat releases succeed or
fail. -/
theorem C4_cancelBooking_status_write_authoritative
    (w : World) (bookingId requesterId : Nat) (admin : Bool) (b : Booking)
    (hfind : w.bookings.find? (fun x => x.id == bookingId) = some b)
    (hauth : admin = true ∨ b.userId = requesterId)
    (hn : ¬ b.status = "cancelled") :
    (BookingService.cancelBooking w bookingId requesterId admin).2.bookings =
      w.bookings.map
        (fun x => if x.id == bookingId then {b with status := "cancelled"} else x) ∧
    ∀ b2 ∈ (BookingService.cancelBooking w bookingId requesterId admin).2.bookings,
      b2.id = bookingId → b2.status = "cancelled" := by
  have hcond : (!admin && b.userId != requesterId) = false := by
    rcases hauth with h | h
    · simp [h]
    · simp [h]
  have hnb : (b.status == "cancelled") = false := by
    simp [hn]
  have hmain :
      (BookingService.cancelBooking w bookingId requesterId admin).2.bookings =
        w.bookings.map
          (fun x => if x.id == bookingId then {b with status := "cancelled"} else x) := by
    unfold BookingService.cancelBooking
    simp only [hfind, hcond, hnb, Bool.false_eq_true, if_false]
    split
    · exact releaseSeatsByBooking_bookings _ _
    · exact releaseSeatsByBooking_bookings _ _
  refine ⟨hmain, ?_⟩
  intro b2 hmem hid
  rw [hmain] at hmem
  obtain ⟨x, hx, hxeq⟩ := List.mem_map.1 hmem
  by_cases hxid : x.id = bookingId
  · rw [if_pos (by simp [hxid])] at hxeq
    rw [← hxeq]
  · rw [if_neg (by simp [hxid])] at hxeq
    rw [← hxeq] at hid
    exact absurd hid hxid

/-- Witness for C4: the event row of the booking is missing, so the
capacity release fails — the call reports an error, yet the booking is
already cancelled in the store. -/
theorem C4_witness :
    orphanBookingWorld.bookings.find? (fun x => x.id == 7) =
        some ⟨7, 2, 1, "booked", some 1⟩ ∧
    (BookingService.cancelBooking orphanBookingWorld 7 2 false).2.bookings =
      orphanBookingWorld.bookings.map
        (fun x => if x.id == 7 then
          {(⟨7, 2, 1, "booked", some 1⟩ : Booking) with status := "cancelled"} else x) :=
  ⟨rfl,
    (C4_cancelBooking_status_write_authoritative orphanBookingWorld 7 2 false
      ⟨7, 2, 1, "booked", some 1⟩ rfl (Or.inr rfl) (by decide)).1⟩

/-- C9.  With user, event and time valid, `createBooking` rejects the
request with the duplicate-booking error — mutating nothing — exactly
when the user already holds a `booked` booking for the event; when
every booking the user has for the event is cancelled (or there is
none), the duplicate check does not fire and the call proceeds into the
booking flow. -/
theorem C9_duplicate_active_booking_rejected
    (w : World) (now : Int) (userId eventId : Nat)
    (si : Option (List Int)) (pf : Bool) (e : Event)
    (hu : w.users userId = true) (he : w.events eventId = some e)
    (ht : ¬ e.time < now) :
    ((∃ b ∈ w.bookings,
        b.userId = userId ∧ b.eventId = eventId ∧ b.status = "booked") →
      BookingService.createBooking w now userId eventId si pf =
        (.error "You already have an active booking for this event", w)) ∧
    ((∀ b ∈ w.bookings,
        ¬(b.userId = userId ∧ b.eventId = eventId ∧ b.status = "booked")) →
      BookingService.createBooking w now userId eventId si pf =
        BookingService.confirmBookingWithSeats w userId e
          (match si with
           | some l => if 0 < l.length then l else []
           | none => []) pf) := by
  constructor
  · rintro ⟨b, hb, h1, h2, h3⟩
    have hdup : (w.bookings.any
        fun x => x.userId == userId && x.eventId == eventId && x.status == "booked") = true := by
      rw [List.any_eq_true]
      exact ⟨b, hb, by simp [h1, h2, h3]⟩
    unfold BookingService.createBooking
    simp [hu, he, ht, hdup]
  · intro hall
    have hdup : (w.bookings.any
        fun x => x.userId == userId && x.eventId == eventId && x.status == "booked") = false := by
      rw [List.any_eq_false]
      intro x hx hcontra
      simp only [Bool.and_eq_true, beq_iff_eq] at hcontra
      exact hall x hx ⟨hcontra.1.1, hcontra.1.2, hcontra.2⟩
    unfold BookingService.createBooking
    simp [hu, he, ht, hdup]

/-- Witness for C9: a cancelled booking does not block — the call with
only a cancelled booking on file reaches the booking flow. -/
theorem C9_witness :
    cancelledBookingWorld.users 2 = true ∧
    cancelledBookingWorld.events 1 = some (sampleEvent 5 1) ∧
    ¬ (sampleEvent 5 1).time < 0 ∧
    BookingService.createBooking cancelledBookingWorld 0 2 1 none false =
      BookingService.confirmBookingWithSeats cancelledBookingWorld 2
        (sampleEvent 5 1) [] false :=
  ⟨rfl, rfl, by decide,
    (C9_duplicate_active_booking_rejected cancelledBookingWorld 0 2 1 none false
        (sampleEvent 5 1) rfl rfl (by decide)).2 (by decide)⟩

/-- A `size`-bit bitfield value is below `2 ^ size`. -/
theorem bitfieldGetU_lt (bm : Nat → Bool) : ∀ (size start : Nat),
    SeatService.bitfieldGetU bm start size < 2 ^ size := by
  intro size
  induction size with
  | zero => intro start; simp [SeatService.bitfieldGetU]
  | succ n ih =>
    intro start
    have h := ih (start + 1)
    have h2 : 2 ^ (n + 1) = 2 ^ n + 2 ^ n := by ring
    by_cases hb : bm start
    · simp only [SeatService.bitfieldGetU, hb, if_true]
      omega
    · simp only [SeatService.bitfieldGetU, hb, Bool.false_eq_true, if_false]
      omega

/-- Bit `size - 1 - i` of the most-significant-bit-first bitfield value
is the stored bit at offset `start + i`: the decode loop of
`getAvailability` recovers exactly the stored bits. -/
theorem testBit_bitfieldGetU (bm : Nat → Bool) : ∀ (size start i : Nat), i < size →
    Nat.testBit (SeatService.bitfieldGetU bm start size) (size - 1 - i) =
      bm (start + i) := by
  intro size
  induction size with
  | zero => intro start i h; exact absurd h (by omega)
  | succ n ih =>
    intro start i hi
    have hr := bitfieldGetU_lt bm n (start + 1)
    cases i with
    | zero =>
      have hidx : n + 1 - 1 - 0 = n := by omega
      simp only [SeatService.bitfieldGetU, hidx, Nat.add_zero]
      by_cases hb : bm start
      · simp only [hb, if_true]
        rw [Nat.testBit_two_pow_add_eq, Nat.testBit_lt_two_pow hr]
        rfl
      · simp only [hb, Bool.false_eq_true, if_false, Nat.zero_add]
        exact Nat.testBit_lt_two_pow hr
    | succ j =>
      have hj : j < n := by omega
      have hidx : n + 1 - 1 - (j + 1) = n - 1 - j := by omega
      have hlt : n - 1 - j < n := by omega
      have hrec := ih (start + 1) j hj
      have harg : start + 1 + j = start + (j + 1) := by omega
      simp only [SeatService.bitfieldGetU, hidx]
      by_cases hb : bm start
      · simp only [hb, if_true]
        rw [Nat.testBit_two_pow_add_gt hlt, hrec, harg]
      · simp only [hb, Bool.false_eq_true, if_false, Nat.zero_add]
        rw [hrec, harg]

/-- The chunked read loop returns one element per remaining seat. -/
theorem availLoop_length (bm : Nat → Bool) (cap : Nat) : ∀ (n start : Nat),
    cap - start ≤ n →
    (SeatService.availLoop bm cap start).length = cap - start := by
  intro n
  induction n with
  | zero =>
    intro start h
    unfold SeatService.availLoop
    rw [dif_neg (by omega)]
    simp
    omega
  | succ n ih =>
    intro start h
    unfold SeatService.availLoop
    by_cases hc : start < cap
    · rw [dif_pos hc, List.length_append]
      have hdec : (SeatService.decodeChunk
          (SeatService.bitfieldGetU bm start (min 63 (cap - start)))
          (min 63 (cap - start))).length = min 63 (cap - start) := by
        simp [SeatService.decodeChunk]
      rw [hdec, ih (start + 63) (by omega)]
      omega
    · rw [dif_neg hc]
      simp
      omega

/-- Element `j` of the chunked read loop is the stored bit at offset
`start + j`. -/
theorem availLoop_getElem (bm : Nat → Bool) (cap : Nat) : ∀ (n start j : Nat),
    cap - start ≤ n → start + j < cap →
    (SeatService.availLoop bm cap start)[j]? = some (bm (start + j)) := by
  intro n
  induction n with
  | zero => intro start j h hj; exact absurd hj (by omega)
  | succ n ih =>
    intro start j h hj
    unfold SeatService.availLoop
    have hc : start < cap := by omega
    rw [dif_pos hc]
    have hdec : (SeatService.decodeChunk
        (SeatService.bitfieldGetU bm start (min 63 (cap - start)))
        (min 63 (cap - start))).length = min 63 (cap - start) := by
      simp [SeatService.decodeChunk]
    by_cases hjs : j < min 63 (cap - start)
    · rw [List.getElem?_append_left (by rw [hdec]; exact hjs)]
      unfold SeatService.decodeChunk
      rw [List.getElem?_map, List.getElem?_range hjs]
      simp only [Option.map_some']
      rw [testBit_bitfieldGetU bm (min 63 (cap - start)) start j hjs]
    · rw [List.getElem?_append_right (by rw [hdec]; omega), hdec]
      have hsz : min 63 (cap - start) = 63 := by omega
      rw [hsz]
      have harg : start + 63 + (j - 63) = start + j := by omega
      rw [ih (start + 63) (j - 63) (by omega) (by omega), harg]

/-- C6.  For every capacity and every seat `s` in `1..capacity`,
`getAvailability` yields exactly `capacity` booleans whose `(s-1)`-th
element is the seat's stored bit — the same value `isSeatTaken`
reports — despite the 63-bit chunked, most-significant-bit-first
decoding. -/
theorem C6_getAvailability_seat_order (bm : Nat → Bool) (capacity : Int) (s : Nat)
    (h1 : 1 ≤ s) (h2 : (s : Int) ≤ capacity) :
    (SeatService.getAvailability bm capacity).length = capacity.toNat ∧
    (SeatService.getAvailability bm capacity)[s - 1]? = some (bm (s - 1)) ∧
    SeatService.isSeatTaken bm (s : Int) = .ok (bm (s - 1)) := by
  have hcap : ¬ capacity ≤ 0 := by omega
  refine ⟨?_, ?_, ?_⟩
  · unfold SeatService.getAvailability
    rw [if_neg hcap, availLoop_length bm capacity.toNat capacity.toNat 0 (by omega)]
    omega
  · unfold SeatService.getAvailability
    rw [if_neg hcap]
    have := availLoop_getElem bm capacity.toNat capacity.toNat 0 (s - 1)
      (by omega) (by omega)
    simpa using this
  · unfold SeatService.isSeatTaken
    rw [if_neg (by omega)]
    have hidx : ((s : Int) - 1).toNat = s - 1 := by omega
    rw [hidx]

/-- Witness for C6 on a three-seat map with only seat 2 taken. -/
theorem C6_witness :
    1 ≤ 2 ∧ ((2 : Nat) : Int) ≤ 3 ∧
    (SeatService.getAvailability (fun i => i == 1) 3).length = (3 : Int).toNat ∧
    (SeatService.getAvailability (fun i => i == 1) 3)[2 - 1]? =
      some ((fun i : Nat => i == 1) (2 - 1)) ∧
    SeatService.isSeatTaken (fun i => i == 1) ((2 : Nat) : Int) =
      .ok ((fun i : Nat => i == 1) (2 - 1)) := by
  refine ⟨by decide, by decide, ?_, ?_, ?_⟩
  · exact (C6_getAvailability_seat_order (fun i => i == 1) 3 2
      (by decide) (by decide)).1
  · exact (C6_getAvailability_seat_order (fun i => i == 1) 3 2
      (by decide) (by decide)).2.1
  · exact (C6_getAvailability_seat_order (fun i => i == 1) 3 2
      (by decide) (by decide)).2.2
